import Mathlib

/-!
Verification of the Timeline Playback Synchronizer.

The embedding below follows the frontend source of the video-timeline
editor: the pure active-clip resolver `getActiveClip`, the drift-sync and
clip-change effects of the `VideoPlayer` component, the per-frame
`updatePlayhead` step, the `togglePlay` handler, and the pixel/time mapping
of the `Timeline` component.  All JavaScript numbers are modelled as exact
rationals.  The JavaScript `Array.prototype.sort` call with comparator
`(a, b) => a.start - b.start` is a stable ascending sort by `start`; it is
modelled by the stable structural sort `List.insertionSort`, whose result
coincides with that of every stable sort for this comparator.
-/

/-- A timeline clip, mirroring the `Clip` interface of the source:
`id`, `source_file`, `start` (timeline seconds), `duration` (seconds),
`track_id`. -/
structure Clip where
  id : String
  source_file : String
  start : ℚ
  duration : ℚ
  track_id : String
  deriving DecidableEq

/-- Ascending order on clip `start` time, the order induced by the source
comparator `(a, b) => a.start - b.start`. -/
def startLE (a b : Clip) : Prop := a.start ≤ b.start

instance : DecidableRel startLE :=
  fun a b => inferInstanceAs (Decidable (a.start ≤ b.start))

instance : IsTotal Clip startLE := ⟨fun a b => le_total a.start b.start⟩

instance : IsTrans Clip startLE := ⟨fun _ _ _ h h' => le_trans h h'⟩

/-- The sorted copy built by `[...clips].sort((a, b) => a.start - b.start)`. -/
def sortClips (clips : List Clip) : List Clip := List.insertionSort startLE clips

/-- The matching test of the resolver loop:
`clip.start <= time && time < clip.start + clip.duration`. -/
def clipMatches (c : Clip) (time : ℚ) : Bool :=
  decide (c.start ≤ time) && decide (time < c.start + c.duration)

/-- `getActiveClip` from the source: sort a copy of the clip list by start
time, return the first clip whose half-open interval contains `time`, and
`none` when no clip matches. -/
def getActiveClip (clips : List Clip) (time : ℚ) : Option Clip :=
  (sortClips clips).find? (fun c => clipMatches c time)

/-- A heap of JavaScript arrays of clips, addressed by natural numbers;
`fresh` is the next unused address.  Used to express the frame property of
`getActiveClip`: the spread `[...clips]` allocates a fresh array and the
in-place `sort` mutates only that copy. -/
structure ClipArrayStore where
  arrs : Nat → List Clip
  fresh : Nat

/-- Read the array at address `a`. -/
def readArr (s : ClipArrayStore) (a : Nat) : List Clip := s.arrs a

/-- Overwrite the array at address `a` with `v`. -/
def writeArr (s : ClipArrayStore) (a : Nat) (v : List Clip) : ClipArrayStore :=
  { arrs := fun i => if i = a then v else s.arrs i, fresh := s.fresh }

/-- The spread `[...clips]`: allocate a fresh address holding a copy of the
array at `a` and return the new address together with the grown store. -/
def spreadCopy (s : ClipArrayStore) (a : Nat) : Nat × ClipArrayStore :=
  (s.fresh,
   { arrs := fun i => if i = s.fresh then s.arrs a else s.arrs i,
     fresh := s.fresh + 1 })

/-- The in-place `.sort((a, b) => a.start - b.start)` applied to the array
stored at address `a`. -/
def sortInPlace (s : ClipArrayStore) (a : Nat) : ClipArrayStore :=
  writeArr s a (sortClips (readArr s a))

/-- `getActiveClip` with the array mutations made explicit: spread the input
array at address `a` into a fresh copy, sort the copy in place, and scan the
copy for the first matching clip.  Returns the result together with the
final store. -/
def getActiveClipRun (s : ClipArrayStore) (a : Nat) (time : ℚ) :
    Option Clip × ClipArrayStore :=
  let copy := spreadCopy s a
  let s2 := sortInPlace copy.2 copy.1
  ((readArr s2 copy.1).find? (fun c => clipMatches c time), s2)

/-- The drift-sync effect of `VideoPlayer` (sync on external playhead
change): with an active clip bound, compute `offsetInClip = playheadTime -
activeClip.start`; reposition the media element to `max 0 offsetInClip`
only when `|currentVideoTime - offsetInClip| > 0.1`.  Returns the new
`currentTime` of the video element when a reposition happens. -/
def syncVideoOnExternalSeek (clips : List Clip) (playheadTime currentVideoTime : ℚ) :
    Option ℚ :=
  match getActiveClip clips playheadTime with
  | none => none
  | some activeClip =>
    let offsetInClip := playheadTime - activeClip.start
    if 1 / 10 < |currentVideoTime - offsetInClip| then some (max 0 offsetInClip)
    else none

/-- The imperative payload of the clip-change binding effect: the source url
assigned to the video element, the `currentTime` it is seeked to, and
whether `play()` is called. -/
structure BindAction where
  src : String
  offset : ℚ
  play : Bool
  deriving DecidableEq

/-- The clip-change binding effect of `VideoPlayer`: when the resolved
active clip's id differs from the currently bound `currentClipId`, bind the
new clip's converted source, seek the media element to
`max 0 (playheadTime - activeClip.start)` and start playback only when
`isPlaying` holds.  Returns the new `currentClipId` and the optional bind
action.  `convertFileSrc` is the opaque platform path-to-url bridge. -/
def bindActiveClipOnChange (convertFileSrc : String → String) (clips : List Clip)
    (playheadTime : ℚ) (currentClipId : Option String) (isPlaying : Bool) :
    Option String × Option BindAction :=
  match getActiveClip clips playheadTime with
  | none => (none, none)
  | some activeClip =>
    if some activeClip.id ≠ currentClipId then
      (some activeClip.id,
       some { src := convertFileSrc activeClip.source_file,
              offset := max 0 (playheadTime - activeClip.start),
              play := isPlaying })
    else (currentClipId, none)

/-- Clamping of a value into `[lo, hi]`, as used by the specification. -/
def clamp (x lo hi : ℚ) : ℚ := max lo (min x hi)

/-- The observable effects of one `updatePlayhead` tick: the playhead value
emitted through `onPlayheadChange`, the value emitted through
`onPlayingChange`, and whether another animation frame is requested. -/
structure TickEffects where
  playheadChange : Option ℚ
  playingChange : Option Bool
  scheduleNext : Bool
  deriving DecidableEq

/-- One tick of the `updatePlayhead` callback: bail out unless a video
element, an active clip and a playing flag are present; on
`videoTime >= activeClip.duration` resolve the next clip at
`activeClip.start + activeClip.duration + 0.01` and either advance the
playhead to its start or, when none exists, report end of timeline by
emitting `playing = false` and scheduling no further frame; otherwise emit
`activeClip.start + videoTime` as the new playhead.  Every non-terminal
branch requests the next animation frame. -/
def updatePlayhead (clips : List Clip) (activeClip : Option Clip)
    (videoTime : ℚ) (isPlaying : Bool) : TickEffects :=
  match activeClip with
  | none => { playheadChange := none, playingChange := none, scheduleNext := false }
  | some c =>
    if isPlaying then
      if c.duration ≤ videoTime then
        match getActiveClip clips (c.start + c.duration + 1 / 100) with
        | some nextClip =>
            { playheadChange := some nextClip.start, playingChange := none,
              scheduleNext := isPlaying }
        | none =>
            { playheadChange := none, playingChange := some false,
              scheduleNext := false }
      else
        { playheadChange := some (c.start + videoTime), playingChange := none,
          scheduleNext := isPlaying }
    else { playheadChange := none, playingChange := none, scheduleNext := false }

/-- An externally visible action of the `togglePlay` handler, in emission
order: a seek request through `onPlayheadChange` or a playing-state change
through `onPlayingChange`. -/
inductive ToggleAction where
  | seek (time : ℚ)
  | setPlaying (playing : Bool)
  deriving DecidableEq

/-- `clips.reduce((max, c) => Math.max(max, c.start + c.duration), 0)` from
`togglePlay`: the fold computing the total timeline duration. -/
def totalDuration (clips : List Clip) : ℚ :=
  clips.foldl (fun m c => max m (c.start + c.duration)) 0

/-- The `togglePlay` handler: no-op when no clips exist; when currently not
playing and `playheadTime >= totalDuration - 0.1`, first emit a seek to 0;
finally flip the playing flag.  The returned list is the emission order of
the handler's calls. -/
def togglePlay (clips : List Clip) (playheadTime : ℚ) (isPlaying : Bool) :
    List ToggleAction :=
  if clips.length = 0 then []
  else
    (if !isPlaying && decide (totalDuration clips - 1 / 10 ≤ playheadTime) then
      [ToggleAction.seek 0]
    else []) ++ [ToggleAction.setPlaying (!isPlaying)]

/-- The fixed zoom level of the timeline, in pixels per second. -/
def PIXELS_PER_SECOND : ℚ := 50

/-- Playhead and clip geometry rendering: timeline seconds to pixels,
`left = t * PIXELS_PER_SECOND`. -/
def timeToPixel (t : ℚ) : ℚ := t * PIXELS_PER_SECOND

/-- The JavaScript `x || y` fallback on numbers: `y` when `x` is zero
(falsy), otherwise `x`. -/
def jsOr (x fallback : ℚ) : ℚ := if x = 0 then fallback else x

/-- `handleTimelineClick` from the `Timeline` component, reduced to its data
flow: a pointer x-coordinate becomes `time = x / PIXELS_PER_SECOND`, the
maximum is `timelineState.duration || 0`, and the issued seek value is
`Math.max(0, Math.min(time, maxTime))`. -/
def handleTimelineClick (x : ℚ) (duration : ℚ) : ℚ :=
  max 0 (min (x / PIXELS_PER_SECOND) (jsOr duration 0))

theorem clipMatches_iff {c : Clip} {t : ℚ} :
    clipMatches c t = true ↔ c.start ≤ t ∧ t < c.start + c.duration := by
  simp [clipMatches]

theorem sortClips_perm (clips : List Clip) : List.Perm (sortClips clips) clips :=
  List.perm_insertionSort startLE clips

theorem sortClips_sorted (clips : List Clip) :
    List.Pairwise startLE (sortClips clips) :=
  List.sorted_insertionSort startLE clips

theorem getActiveClip_mem {clips : List Clip} {t : ℚ} {c : Clip}
    (h : getActiveClip clips t = some c) : c ∈ clips := by
  unfold getActiveClip at h
  exact (sortClips_perm clips).subset (List.mem_of_find?_eq_some h)

theorem getActiveClip_covers {clips : List Clip} {t : ℚ} {c : Clip}
    (h : getActiveClip clips t = some c) :
    c.start ≤ t ∧ t < c.start + c.duration := by
  unfold getActiveClip at h
  exact clipMatches_iff.mp (List.find?_some (p := fun x => clipMatches x t) h)

theorem getActiveClip_eq_none_iff {clips : List Clip} {t : ℚ} :
    getActiveClip clips t = none ↔
      ∀ c ∈ clips, ¬(c.start ≤ t ∧ t < c.start + c.duration) := by
  unfold getActiveClip
  rw [List.find?_eq_none]
  constructor
  · intro h c hc hcov
    exact h c ((sortClips_perm clips).mem_iff.mpr hc) (clipMatches_iff.mpr hcov)
  · intro h c hc hb
    exact h c ((sortClips_perm clips).mem_iff.mp hc) (clipMatches_iff.mp hb)

theorem getActiveClip_min_start {clips : List Clip} {t : ℚ} {c : Clip}
    (h : getActiveClip clips t = some c) :
    ∀ c' ∈ clips, c'.start ≤ t ∧ t < c'.start + c'.duration → c.start ≤ c'.start := by
  intro c' hc' hcov
  unfold getActiveClip at h
  obtain ⟨-, as, bs, hsplit, hfail⟩ := List.find?_eq_some.mp h
  have hmem : c' ∈ sortClips clips := (sortClips_perm clips).mem_iff.mpr hc'
  rw [hsplit] at hmem
  rcases List.mem_append.mp hmem with hin | hin
  · exact absurd (clipMatches_iff.mpr hcov) (by simpa using hfail c' hin)
  · rcases List.mem_cons.mp hin with rfl | hin
    · exact le_refl _
    · have hp : List.Pairwise startLE (c :: bs) :=
        (sortClips_sorted clips).sublist
          (by rw [hsplit]; exact List.sublist_append_right as (c :: bs))
      exact (List.pairwise_cons.mp hp).1 c' hin

theorem jsOr_zero_fallback (d : ℚ) : jsOr d 0 = d := by
  unfold jsOr
  split_ifs with h
  · rw [h]
  · rfl

theorem le_totalDuration_foldl (clips : List Clip) (m : ℚ) :
    m ≤ clips.foldl (fun acc c => max acc (c.start + c.duration)) m ∧
    ∀ c ∈ clips,
      c.start + c.duration ≤
        clips.foldl (fun acc c => max acc (c.start + c.duration)) m := by
  induction clips generalizing m with
  | nil => simp
  | cons hd tl ih =>
    refine ⟨le_trans (le_max_left _ _) (ih (max m (hd.start + hd.duration))).1, ?_⟩
    intro c hc
    rcases List.mem_cons.mp hc with rfl | hc
    · exact le_trans (le_max_right _ _) (ih _).1
    · exact (ih _).2 c hc

/-- C1: the active-clip resolver returns `none` exactly when no clip's
half-open interval `[start, start + duration)` contains `t`; otherwise the
returned clip belongs to the list, contains `t`, and has minimal `start`
among all clips containing `t`, so under overlaps the earliest-starting
matching clip wins. -/
theorem getActiveClip_spec (clips : List Clip) (t : ℚ) :
    (getActiveClip clips t = none ↔
      ∀ c ∈ clips, ¬(c.start ≤ t ∧ t < c.start + c.duration)) ∧
    ∀ c, getActiveClip clips t = some c →
      c ∈ clips ∧ (c.start ≤ t ∧ t < c.start + c.duration) ∧
      ∀ c' ∈ clips, c'.start ≤ t ∧ t < c'.start + c'.duration →
        c.start ≤ c'.start :=
  ⟨getActiveClip_eq_none_iff,
   fun _ h => ⟨getActiveClip_mem h, getActiveClip_covers h, getActiveClip_min_start h⟩⟩

/-- Witness for C1 at a concrete gap: a single clip covering `[0, 5)` is
queried at `t = 6` and the resolver reports the gap. -/
theorem getActiveClip_spec_witness :
    getActiveClip [⟨"c1", "f1", 0, 5, "t0"⟩] 6 = none :=
  (getActiveClip_spec [⟨"c1", "f1", 0, 5, "t0"⟩] 6).1.mpr (by norm_num)

/-- C2: with an active clip resolved for the externally broadcast playhead,
the drift-sync effect force-repositions the media element to
`playheadTime - activeClip.start` exactly when the absolute difference
between that offset and the media element's current position exceeds the
0.1-second threshold, and does nothing otherwise. -/
theorem drift_correction_threshold (clips : List Clip) (p v : ℚ) (c : Clip)
    (hc : getActiveClip clips p = some c) :
    (1 / 10 < |v - (p - c.start)| →
      syncVideoOnExternalSeek clips p v = some (p - c.start)) ∧
    (|v - (p - c.start)| ≤ 1 / 10 →
      syncVideoOnExternalSeek clips p v = none) := by
  have h0 : 0 ≤ p - c.start := sub_nonneg.mpr (getActiveClip_covers hc).1
  unfold syncVideoOnExternalSeek
  rw [hc]
  constructor
  · intro hgt
    simp only []
    rw [if_pos hgt, max_eq_right h0]
  · intro hle
    simp only []
    rw [if_neg (not_lt.mpr hle)]

/-- Witness for C2: scenario D (playhead 2.0, media position 2.08, drift
0.08 ignored) and scenario E (playhead 2.5, media position 2.0, drift 0.5
repositions to 2.5 minus the clip start 0). -/
theorem drift_correction_threshold_witness :
    syncVideoOnExternalSeek [⟨"c1", "f1", 0, 5, "t0"⟩] 2 (52 / 25) = none ∧
    syncVideoOnExternalSeek [⟨"c1", "f1", 0, 5, "t0"⟩] (5 / 2) 2 =
      some (5 / 2 - (⟨"c1", "f1", 0, 5, "t0"⟩ : Clip).start) := by
  have hc2 : getActiveClip [(⟨"c1", "f1", 0, 5, "t0"⟩ : Clip)] 2 =
      some ⟨"c1", "f1", 0, 5, "t0"⟩ := by
    norm_num [getActiveClip, sortClips, clipMatches, startLE,
      List.insertionSort, List.orderedInsert, List.find?]
  have hc5 : getActiveClip [(⟨"c1", "f1", 0, 5, "t0"⟩ : Clip)] (5 / 2) =
      some ⟨"c1", "f1", 0, 5, "t0"⟩ := by
    norm_num [getActiveClip, sortClips, clipMatches, startLE,
      List.insertionSort, List.orderedInsert, List.find?]
  constructor
  · exact (drift_correction_threshold _ _ _ _ hc2).2
      (by rw [abs_le]; constructor <;> norm_num)
  · exact (drift_correction_threshold _ _ _ _ hc5).1
      (by rw [lt_abs]; right; norm_num)

/-- C3: whenever the resolved active clip's id differs from the previously
bound one, the effect rebinds the media source to the new clip's source
reference and seeks the media element to
`clamp(playheadTime - newClip.start, 0, newClip.duration)`; that offset is
never negative and never exceeds the new clip's duration, and the bind
action starts playback exactly when the playing intent is true. -/
theorem clip_change_binding (f : String → String) (clips : List Clip)
    (p : ℚ) (curId : Option String) (playing : Bool) (c : Clip)
    (hc : getActiveClip clips p = some c) (hne : some c.id ≠ curId) :
    (bindActiveClipOnChange f clips p curId playing).2 =
      some { src := f c.source_file,
             offset := clamp (p - c.start) 0 c.duration,
             play := playing } ∧
    0 ≤ clamp (p - c.start) 0 c.duration ∧
    clamp (p - c.start) 0 c.duration ≤ c.duration := by
  obtain ⟨h1, h2⟩ := getActiveClip_covers hc
  have h0 : 0 ≤ p - c.start := sub_nonneg.mpr h1
  have hd : p - c.start ≤ c.duration := by linarith
  have hclamp : clamp (p - c.start) 0 c.duration = max 0 (p - c.start) := by
    unfold clamp
    rw [min_eq_left hd]
  refine ⟨?_, ?_, ?_⟩
  · simp only [bindActiveClipOnChange, hc]
    rw [if_pos hne, hclamp]
  · rw [hclamp]
    exact le_max_left _ _
  · rw [hclamp, max_eq_right h0]
    exact hd

/-- Witness for C3: a clip covering `[0, 5)` freshly bound (no previous
clip) at playhead 2 with playing intent on. -/
theorem clip_change_binding_witness :
    (bindActiveClipOnChange (fun s => s) [⟨"c1", "f1", 0, 5, "t0"⟩] 2 none true).2 =
      some { src := "f1",
             offset := clamp (2 - (⟨"c1", "f1", 0, 5, "t0"⟩ : Clip).start) 0
               (⟨"c1", "f1", 0, 5, "t0"⟩ : Clip).duration,
             play := true } := by
  have hc : getActiveClip [(⟨"c1", "f1", 0, 5, "t0"⟩ : Clip)] 2 =
      some ⟨"c1", "f1", 0, 5, "t0"⟩ := by
    norm_num [getActiveClip, sortClips, clipMatches, startLE,
      List.insertionSort, List.orderedInsert, List.find?]
  exact (clip_change_binding (fun s => s) _ 2 none true _ hc (by simp)).1

/-- C4: on a tick whose media position is at or past the active clip's
duration, the synchronizer resolves the active clip at
`activeClip.start + activeClip.duration + 0.01`; when that resolution finds
a next clip the tick advances the playhead to the next clip's start and
keeps the animation loop scheduled, so playback continues without an
external seek. -/
theorem boundary_advance (clips : List Clip) (c nextClip : Clip) (videoTime : ℚ)
    (hd : c.duration ≤ videoTime)
    (hnext : getActiveClip clips (c.start + c.duration + 1 / 100) = some nextClip) :
    updatePlayhead clips (some c) videoTime true =
      { playheadChange := some nextClip.start, playingChange := none,
        scheduleNext := true } := by
  simp only [updatePlayhead, eq_self_iff_true, if_true, hd, hnext]

/-- Witness for C4, scenario B: clips `[0, 5)` and `[5, 8)`, media elapsed
5.02 on the first clip; the resolver at 5.01 returns the second clip and
the tick advances to its start 5 while staying scheduled. -/
theorem boundary_advance_witness :
    updatePlayhead [⟨"c1", "f1", 0, 5, "t0"⟩, ⟨"c2", "f2", 5, 3, "t0"⟩]
        (some ⟨"c1", "f1", 0, 5, "t0"⟩) (251 / 50) true =
      { playheadChange := some (⟨"c2", "f2", 5, 3, "t0"⟩ : Clip).start,
        playingChange := none, scheduleNext := true } := by
  have hnext : getActiveClip [(⟨"c1", "f1", 0, 5, "t0"⟩ : Clip), ⟨"c2", "f2", 5, 3, "t0"⟩]
      ((⟨"c1", "f1", 0, 5, "t0"⟩ : Clip).start + (⟨"c1", "f1", 0, 5, "t0"⟩ : Clip).duration + 1 / 100) =
      some ⟨"c2", "f2", 5, 3, "t0"⟩ := by
    norm_num [getActiveClip, sortClips, clipMatches, startLE,
      List.insertionSort, List.orderedInsert, List.find?]
  exact boundary_advance _ _ _ (251 / 50) (by norm_num) hnext

/-- C5: on a tick whose media position is at or past the active clip's
duration, when no clip exists at
`activeClip.start + activeClip.duration + 0.01` the tick reports playing =
false and requests no further animation frame. -/
theorem boundary_exhaustion (clips : List Clip) (c : Clip) (videoTime : ℚ)
    (hd : c.duration ≤ videoTime)
    (hnone : getActiveClip clips (c.start + c.duration + 1 / 100) = none) :
    updatePlayhead clips (some c) videoTime true =
      { playheadChange := none, playingChange := some false,
        scheduleNext := false } := by
  simp only [updatePlayhead, eq_self_iff_true, if_true, hd, hnone]

/-- Witness for C5: a single clip `[0, 5)` with media elapsed 5.02; no clip
exists at 5.01, so the tick clears the playing flag and stops scheduling. -/
theorem boundary_exhaustion_witness :
    updatePlayhead [⟨"c1", "f1", 0, 5, "t0"⟩] (some ⟨"c1", "f1", 0, 5, "t0"⟩)
        (251 / 50) true =
      { playheadChange := none, playingChange := some false,
        scheduleNext := false } := by
  have hnone : getActiveClip [(⟨"c1", "f1", 0, 5, "t0"⟩ : Clip)]
      ((⟨"c1", "f1", 0, 5, "t0"⟩ : Clip).start + (⟨"c1", "f1", 0, 5, "t0"⟩ : Clip).duration + 1 / 100) =
      none := by
    norm_num [getActiveClip, sortClips, clipMatches, startLE,
      List.insertionSort, List.orderedInsert, List.find?]
  exact boundary_exhaustion _ _ (251 / 50) (by norm_num) hnone

/-- C6: the playback toggle is a no-op when no clips exist; with clips
present, playing intent currently off and the playhead at or past
`totalDuration - 0.1`, the handler first issues a seek to 0 and then
enables the intent.  The fold-computed total duration is 0 on the empty
list and bounds every clip's `start + duration` from above. -/
theorem togglePlay_spec (clips : List Clip) (playheadTime : ℚ) (isPlaying : Bool) :
    (clips = [] → togglePlay clips playheadTime isPlaying = []) ∧
    (clips ≠ [] → totalDuration clips - 1 / 10 ≤ playheadTime →
      togglePlay clips playheadTime false =
        [ToggleAction.seek 0, ToggleAction.setPlaying true]) ∧
    totalDuration [] = 0 ∧
    ∀ c ∈ clips, c.start + c.duration ≤ totalDuration clips := by
  refine ⟨?_, ?_, rfl, fun c hc => (le_totalDuration_foldl clips 0).2 c hc⟩
  · intro h
    subst h
    simp [togglePlay]
  · intro hne hp
    have hlen : ¬clips.length = 0 := by
      simpa [List.length_eq_zero] using hne
    have hcond : (!false && decide (totalDuration clips - 1 / 10 ≤ playheadTime)) = true := by
      simp only [Bool.not_false, Bool.true_and, decide_eq_true_eq]
      exact hp
    unfold togglePlay
    rw [if_neg hlen, if_pos hcond]
    rfl

/-- Witness for C6, scenario C: a single clip covering `[0, 4)` with the
playhead at 3.95 and intent off; the toggle emits a seek to 0 followed by
enabling playback. -/
theorem togglePlay_spec_witness :
    togglePlay [⟨"c1", "f1", 0, 4, "t0"⟩] (79 / 20) false =
      [ToggleAction.seek 0, ToggleAction.setPlaying true] :=
  (togglePlay_spec [⟨"c1", "f1", 0, 4, "t0"⟩] (79 / 20) false).2.1
    (by simp)
    (by norm_num [totalDuration, List.foldl, max_def])

/-- C7: for every `t` in `[0, totalDuration]`, converting timeline seconds
to pixels and back is the identity over exact rational arithmetic, and the
pixel-to-time direction is `clamp(x / scale, 0, totalDuration)` with scale
50 pixels per second. -/
theorem pixel_time_roundtrip (t D : ℚ) (h0 : 0 ≤ t) (hD : t ≤ D) :
    handleTimelineClick (timeToPixel t) D = t ∧
    ∀ x, handleTimelineClick x D = clamp (x / PIXELS_PER_SECOND) 0 D := by
  have hppz : (PIXELS_PER_SECOND : ℚ) ≠ 0 := by norm_num [PIXELS_PER_SECOND]
  constructor
  · unfold handleTimelineClick timeToPixel
    rw [jsOr_zero_fallback, mul_div_cancel_right₀ _ hppz, min_eq_left hD,
      max_eq_right h0]
  · intro x
    unfold handleTimelineClick clamp
    rw [jsOr_zero_fallback]

/-- Witness for C7: `t = 3` on a timeline of total duration 10 survives the
pixel round trip unchanged. -/
theorem pixel_time_roundtrip_witness :
    handleTimelineClick (timeToPixel 3) 10 = 3 :=
  (pixel_time_roundtrip 3 10 (by norm_num) (by norm_num)).1

/-- C8: for two abutting clips `a` and `b` with
`a.start + a.duration = b.start`, resolving at the shared boundary instant
`b.start` selects the later clip `b` in the two-clip timeline, and no clip
list ever resolves to `a` at that instant, because the interval end is
exclusive. -/
theorem boundary_selects_later_clip (a b : Clip) (ha : 0 < a.duration)
    (hb : 0 < b.duration) (habut : a.start + a.duration = b.start) :
    getActiveClip [a, b] b.start = some b ∧
    ∀ clips : List Clip, getActiveClip clips b.start ≠ some a := by
  have hnota : ¬(a.start ≤ b.start ∧ b.start < a.start + a.duration) := by
    rintro ⟨-, hlt⟩
    rw [habut] at hlt
    exact lt_irrefl _ hlt
  have hnever : ∀ clips : List Clip, getActiveClip clips b.start ≠ some a := by
    intro clips h
    exact hnota (getActiveClip_covers h)
  refine ⟨?_, hnever⟩
  cases hres : getActiveClip [a, b] b.start with
  | none =>
      exfalso
      exact getActiveClip_eq_none_iff.mp hres b (by simp)
        ⟨le_refl _, by linarith⟩
  | some c =>
      have hmem : c = a ∨ c = b := by simpa using getActiveClip_mem hres
      rcases hmem with rfl | rfl
      · exact absurd hres (hnever _)
      · rfl

/-- Witness for C8: clips `[0, 2)` and `[2, 5)` queried at the shared
boundary 2 resolve to the later clip. -/
theorem boundary_selects_later_clip_witness :
    getActiveClip [⟨"a", "fa", 0, 2, "t0"⟩, ⟨"b", "fb", 2, 3, "t0"⟩]
        (⟨"b", "fb", 2, 3, "t0"⟩ : Clip).start =
      some ⟨"b", "fb", 2, 3, "t0"⟩ :=
  (boundary_selects_later_clip ⟨"a", "fa", 0, 2, "t0"⟩ ⟨"b", "fb", 2, 3, "t0"⟩
    (by norm_num) (by norm_num) (by norm_num)).1

/-- C9: every pointer x-coordinate on the timeline surface, even one mapping
before 0 or past the end, yields a seek value clamped into `[0, duration]`;
the handler is a total function equal to `clamp(x / scale, 0, duration)`,
so no coordinate produces an error. -/
theorem timeline_click_clamped (x D : ℚ) (hD : 0 ≤ D) :
    0 ≤ handleTimelineClick x D ∧ handleTimelineClick x D ≤ D ∧
    handleTimelineClick x D = clamp (x / PIXELS_PER_SECOND) 0 D := by
  refine ⟨?_, ?_, ?_⟩
  · unfold handleTimelineClick
    exact le_max_left _ _
  · unfold handleTimelineClick
    rw [jsOr_zero_fallback]
    exact max_le hD (min_le_right _ _)
  · unfold handleTimelineClick clamp
    rw [jsOr_zero_fallback]

/-- Witness for C9: the out-of-range coordinate -35 on a 4-second timeline
is clamped to a seek value inside `[0, 4]`. -/
theorem timeline_click_clamped_witness :
    0 ≤ handleTimelineClick (-35) 4 ∧ handleTimelineClick (-35) 4 ≤ 4 ∧
    handleTimelineClick (-35) 4 = clamp (-35 / PIXELS_PER_SECOND) 0 4 :=
  timeline_click_clamped (-35) 4 (by norm_num)

/-- C10: the resolver never mutates its input: running `getActiveClip` over
the array store leaves the array at the input address unchanged, because
the sort is applied to a fresh spread copy, and the returned clip agrees
with the pure resolver. -/
theorem getActiveClip_no_mutation (s : ClipArrayStore) (a : Nat) (t : ℚ)
    (h : a < s.fresh) :
    readArr (getActiveClipRun s a t).2 a = readArr s a ∧
    (getActiveClipRun s a t).1 = getActiveClip (readArr s a) t := by
  have hne : a ≠ s.fresh := Nat.ne_of_lt h
  constructor
  · simp [getActiveClipRun, spreadCopy, sortInPlace, writeArr, readArr, hne]
  · simp [getActiveClipRun, spreadCopy, sortInPlace, writeArr, readArr,
      getActiveClip]

/-- Witness for C10: a store holding an unsorted two-clip array at address 0
is left unchanged by the resolver run, which still finds the clip covering
time 2. -/
theorem getActiveClip_no_mutation_witness :
    readArr
        (getActiveClipRun
          ⟨fun i => if i = 0 then [⟨"b", "fb", 5, 3, "t0"⟩, ⟨"a", "fa", 0, 5, "t0"⟩] else [], 1⟩
          0 2).2 0 =
      readArr
        ⟨fun i => if i = 0 then [⟨"b", "fb", 5, 3, "t0"⟩, ⟨"a", "fa", 0, 5, "t0"⟩] else [], 1⟩ 0 ∧
    (getActiveClipRun
        ⟨fun i => if i = 0 then [⟨"b", "fb", 5, 3, "t0"⟩, ⟨"a", "fa", 0, 5, "t0"⟩] else [], 1⟩
        0 2).1 =
      getActiveClip
        (readArr
          ⟨fun i => if i = 0 then [⟨"b", "fb", 5, 3, "t0"⟩, ⟨"a", "fa", 0, 5, "t0"⟩] else [], 1⟩ 0) 2 :=
  getActiveClip_no_mutation _ 0 2 Nat.one_pos
